import Mathlib

/-!
Shallow embedding of the rbx-discord-embeds library (TypeScript/roblox-ts,
compiled to Luau).  The library builds Discord webhook payloads through two
fluent builders (`EmbedBuilder`, `ContentBuilder`) plus a pure timestamp
formatter.

Modelling notes.
Luau tables are reference values: `AddEmbed` stores `embed.EmbedData` (the
table itself), and the author/footer sub-setters replace the referenced
sub-table with a `table.clone`.  To keep these aliasing behaviours visible we
model a small typed heap: author tables, footer tables and embed-document
tables each live in a pool addressed by `Nat` references.  Every operation is
a pure state transformer returning `Except String` (Lua `error`/`assert`
raises, so a failing call produces no updated state, which models "the
document is unchanged" on failure).  Strings are Lean `String`s: a Lean
`String` is a sequence of Unicode code points, which is exactly what
`utf8.len` counts for well-encoded input (the invalid-byte failure path of
`utf8.len` is unrepresentable here, since a Lean string is always valid
Unicode).  Error message texts are carried verbatim from the source
(apostrophes written with the `\x27` escape).
-/

/-- JSON values, used to model the object handed to the host JSON encoder. -/
inductive Json where
  | str (s : String)
  | num (n : Int)
  | bool (b : Bool)
  | arr (elements : List Json)
  | obj (entries : List (String × Json))
deriving Repr

/-- A dynamic scalar value, modelling what a Luau caller may place in a field
slot of a table passed to the variadic field methods. -/
inductive DynVal where
  | str (s : String)
  | bool (b : Bool)
  | num (n : Int)
deriving Repr, DecidableEq

/-- A raw field table as a Luau caller may pass it: each of the three slots of
the `FieldData` shape may be absent (`nil`) or hold any scalar. -/
structure RawField where
  inline : Option DynVal := none
  name : Option DynVal := none
  value : Option DynVal := none
deriving Repr, DecidableEq

/-- the `$terrify<FieldData>()` check: `inline` is an optional boolean,
`name` and `value` are strings (embed-builder.ts line 46, shape from the
`FieldData` interface at lines 16-20). -/
def IsFieldData (field : RawField) : Bool :=
  (match field.inline with
    | none => true
    | some (DynVal.bool _) => true
    | _ => false) &&
  (match field.name with
    | some (DynVal.str _) => true
    | _ => false) &&
  (match field.value with
    | some (DynVal.str _) => true
    | _ => false)

/-- the `t.array(IsFieldData)` check (embed-builder.ts line 78). -/
def IsArrayOfFieldData (args : List RawField) : Bool :=
  args.all IsFieldData

/-- `AuthorData` (embed-builder.ts lines 27-31). -/
structure AuthorData where
  icon_url : Option String := none
  name : Option String := none
  url : Option String := none
deriving Repr, DecidableEq

/-- `FooterData` (embed-builder.ts lines 22-25). -/
structure FooterData where
  icon_url : Option String := none
  text : Option String := none
deriving Repr, DecidableEq

/-- the `{ url }` single-field wrapper used by image and thumbnail. -/
structure UrlWrapper where
  url : String
deriving Repr, DecidableEq

/-- `EmbedData` (embed-builder.ts lines 33-44).  The `author` and `footer`
slots hold references into the heap, since in Luau they hold sub-tables that
the setters clone-and-replace. -/
structure EmbedData where
  author : Option Nat := none
  color : Option Int := none
  description : Option String := none
  fields : Option (List RawField) := none
  footer : Option Nat := none
  image : Option UrlWrapper := none
  thumbnail : Option UrlWrapper := none
  timestamp : Option String := none
  title : Option String := none
  url : Option String := none
deriving Repr, DecidableEq

/-- The table heap: pools of author tables, footer tables and embed-document
tables.  An `EmbedBuilder` instance is identified by a reference into
`embeds` (its `EmbedData` table). -/
structure Heap where
  authors : List AuthorData := []
  footers : List FooterData := []
  embeds : List EmbedData := []
deriving Repr, DecidableEq

/-- Read the author table at a reference (default table if dangling). -/
def Heap.authorAt (h : Heap) (r : Nat) : AuthorData :=
  (h.authors[r]?).getD {}

/-- Read the footer table at a reference (default table if dangling). -/
def Heap.footerAt (h : Heap) (r : Nat) : FooterData :=
  (h.footers[r]?).getD {}

/-- Read the embed-document table at a reference (default if dangling). -/
def Heap.embedAt (h : Heap) (r : Nat) : EmbedData :=
  (h.embeds[r]?).getD {}

/-- Overwrite the embed-document table at a reference, modelling an in-place
field write on `this.EmbedData`. -/
def Heap.setEmbed (h : Heap) (r : Nat) (d : EmbedData) : Heap :=
  { h with embeds := h.embeds.set r d }

/-- Allocate a fresh author table (what `table.clone` produces). -/
def Heap.allocAuthor (h : Heap) (a : AuthorData) : Heap × Nat :=
  ({ h with authors := h.authors ++ [a] }, h.authors.length)

/-- Allocate a fresh footer table (what `table.clone` produces). -/
def Heap.allocFooter (h : Heap) (f : FooterData) : Heap × Nat :=
  ({ h with footers := h.footers ++ [f] }, h.footers.length)

/-- Allocate a fresh embed-document table (`new EmbedBuilder()` starts with
the empty table `{}`, embed-builder.ts line 109). -/
def Heap.allocEmbed (h : Heap) (d : EmbedData) : Heap × Nat :=
  ({ h with embeds := h.embeds ++ [d] }, h.embeds.length)

/-- A dynamic argument value, modelling the untyped value a Luau caller may
pass where an `EmbedBuilder` is expected. -/
inductive DynArg where
  | embedBuilder (r : Nat)
  | str (s : String)
  | num (n : Int)
  | bool (b : Bool)
  | nil
deriving Repr, DecidableEq

/-- `EmbedBuilder.Is` (embed-builder.ts lines 116-119): true exactly on
values that are `EmbedBuilder` instances. -/
def EmbedBuilder.Is : DynArg → Bool
  | DynArg.embedBuilder _ => true
  | _ => false

/-- `GetUtf8Length` (utility module): `utf8.len`, the number of Unicode code
points.  A Lean `String` is always validly encoded, so the invalid-byte
`assert` of the source can never fire here and the count is `s.data.length`. -/
def GetUtf8Length (value : String) : Nat :=
  value.data.length

/-- Anchored prefix match on character lists: does the second list start
with the first? -/
def matchStart : List Char → List Char → Bool
  | [], _ => true
  | _ :: _, [] => false
  | p :: ps, c :: cs => (c == p) && matchStart ps cs

/-- `IsValidUrl` (utility module): the anchored Lua pattern
`^https?://`, i.e. the string starts with `http://` or `https://` (the `s?`
optional item expanded into the two alternatives). -/
def IsValidUrl (value : String) : Bool :=
  matchStart ("http://".data) value.data || matchStart ("https://".data) value.data

/-- `Append` (utility module): `table.clone` the array, then push each extra
value; on immutable lists this is list concatenation.  The clone makes the
resulting ARRAY fresh, but the elements are carried over as-is (references
are not deep-copied). -/
def Utility.Append (array : List α) (values : List α) : List α :=
  array ++ values

/-- One item of an anchored Lua string pattern as used in this library:
a `%d` digit class or a literal character. -/
inductive PatItem where
  | digit
  | lit (c : Char)
deriving Repr, DecidableEq

/-- Matcher for an anchored (`^...$`) Lua pattern made of digit classes and
literals: every item must match one character and the whole string must be
consumed.  (Lua matches bytes; on these patterns a multi-byte character can
never match a `%d` or an ASCII literal byte, so byte-wise and
character-wise matching agree.) -/
def matchPat : List PatItem → List Char → Bool
  | [], [] => true
  | PatItem.digit :: ps, c :: cs => c.isDigit && matchPat ps cs
  | PatItem.lit a :: ps, c :: cs => (c == a) && matchPat ps cs
  | _, _ => false

/-- The pattern `^%d%d%d%d%-%d%d%-%d%dT%d%d:%d%d:%d%dZ$`
(embed-builder.ts line 8). -/
def iso8601Pattern : List PatItem :=
  [PatItem.digit, PatItem.digit, PatItem.digit, PatItem.digit, PatItem.lit '-',
   PatItem.digit, PatItem.digit, PatItem.lit '-', PatItem.digit, PatItem.digit,
   PatItem.lit 'T', PatItem.digit, PatItem.digit, PatItem.lit ':',
   PatItem.digit, PatItem.digit, PatItem.lit ':', PatItem.digit, PatItem.digit,
   PatItem.lit 'Z']

/-- The pattern `^%d%d%d%d%-%d%d%-%d%dT%d%d:%d%d:%d%d%.%d%d%dZ$`
(embed-builder.ts line 9). -/
def iso8601DiscordPattern : List PatItem :=
  [PatItem.digit, PatItem.digit, PatItem.digit, PatItem.digit, PatItem.lit '-',
   PatItem.digit, PatItem.digit, PatItem.lit '-', PatItem.digit, PatItem.digit,
   PatItem.lit 'T', PatItem.digit, PatItem.digit, PatItem.lit ':',
   PatItem.digit, PatItem.digit, PatItem.lit ':', PatItem.digit, PatItem.digit,
   PatItem.lit '.', PatItem.digit, PatItem.digit, PatItem.digit,
   PatItem.lit 'Z']

/-- The shared date-time prefix of the two patterns (everything before the
final `Z` respectively before `%.%d%d%dZ`). -/
def isoDatePrefix : List PatItem :=
  [PatItem.digit, PatItem.digit, PatItem.digit, PatItem.digit, PatItem.lit '-',
   PatItem.digit, PatItem.digit, PatItem.lit '-', PatItem.digit, PatItem.digit,
   PatItem.lit 'T', PatItem.digit, PatItem.digit, PatItem.lit ':',
   PatItem.digit, PatItem.digit, PatItem.lit ':', PatItem.digit, PatItem.digit]

/-- `MatchIso8601` (embed-builder.ts line 8). -/
def MatchIso8601 (value : String) : Bool :=
  matchPat iso8601Pattern value.data

/-- `MatchIso8601DiscordTimestamp` (embed-builder.ts line 9). -/
def MatchIso8601DiscordTimestamp (value : String) : Bool :=
  matchPat iso8601DiscordPattern value.data

/-- `ConvertToDiscordTimestamp` (embed-builder.ts line 14):
`iso8601.sub(1, -2) + ".000Z"` — drop the last byte and append `.000Z`.
It is only ever applied to strings matching the all-ASCII whole-second
pattern, where the last byte is the last character. -/
def ConvertToDiscordTimestamp (iso8601 : String) : String :=
  String.mk (iso8601.data.dropLast ++ ['.', '0', '0', '0', 'Z'])

/-- `EmbedBuilder.SetTitle` (embed-builder.ts lines 146-150): reject titles of
more than 256 code points, else write `title` on the embed document. -/
def EmbedBuilder.SetTitle (h : Heap) (r : Nat) (title : String) : Except String Heap :=
  if GetUtf8Length title > 256 then
    Except.error ("\x27title\x27 must be less than 256 characters")
  else
    Except.ok (h.setEmbed r { h.embedAt r with title := some title })

/-- `EmbedBuilder.SetDescription` (embed-builder.ts lines 159-163): the bound
checked is 4096 code points; note the source's error message text says 2048. -/
def EmbedBuilder.SetDescription (h : Heap) (r : Nat) (description : String) : Except String Heap :=
  if GetUtf8Length description > 4096 then
    Except.error ("\x27description\x27 must be less than 2048 characters")
  else
    Except.ok (h.setEmbed r { h.embedAt r with description := some description })

/-- `EmbedBuilder.SetAuthorName` (embed-builder.ts lines 234-240): validate the
length, `table.clone` the current author table (or a fresh empty table), set
`name` on the clone, and substitute the clone into the document. -/
def EmbedBuilder.SetAuthorName (h : Heap) (r : Nat) (authorName : String) : Except String Heap :=
  if GetUtf8Length authorName > 256 then
    Except.error ("\x27authorName\x27 must be less than 256 characters")
  else
    let d := h.embedAt r
    let current : AuthorData :=
      match d.author with
      | some a => h.authorAt a
      | none => {}
    let alloc := h.allocAuthor { current with name := some authorName }
    Except.ok (alloc.1.setEmbed r { d with author := some alloc.2 })

/-- `EmbedBuilder.SetAuthorUrl` (embed-builder.ts lines 248-254): validate the
URL, clone the current author table, set `url`, substitute the clone. -/
def EmbedBuilder.SetAuthorUrl (h : Heap) (r : Nat) (authorUrl : String) : Except String Heap :=
  if IsValidUrl authorUrl then
    let d := h.embedAt r
    let current : AuthorData :=
      match d.author with
      | some a => h.authorAt a
      | none => {}
    let alloc := h.allocAuthor { current with url := some authorUrl }
    Except.ok (alloc.1.setEmbed r { d with author := some alloc.2 })
  else
    Except.error ("\x27authorUrl\x27 must be a valid URL")

/-- `EmbedBuilder.SetAuthorIconUrl` (embed-builder.ts lines 262-268). -/
def EmbedBuilder.SetAuthorIconUrl (h : Heap) (r : Nat) (authorIconUrl : String) : Except String Heap :=
  if IsValidUrl authorIconUrl then
    let d := h.embedAt r
    let current : AuthorData :=
      match d.author with
      | some a => h.authorAt a
      | none => {}
    let alloc := h.allocAuthor { current with icon_url := some authorIconUrl }
    Except.ok (alloc.1.setEmbed r { d with author := some alloc.2 })
  else
    Except.error ("\x27authorIconUrl\x27 must be a valid URL")

/-- `EmbedBuilder.SetFooterText` (embed-builder.ts lines 292-298): validate the
length, clone the current footer table, set `text`, substitute the clone. -/
def EmbedBuilder.SetFooterText (h : Heap) (r : Nat) (footerText : String) : Except String Heap :=
  if GetUtf8Length footerText > 2048 then
    Except.error ("\x27footerText\x27 must be less than 2048 characters")
  else
    let d := h.embedAt r
    let current : FooterData :=
      match d.footer with
      | some f => h.footerAt f
      | none => {}
    let alloc := h.allocFooter { current with text := some footerText }
    Except.ok (alloc.1.setEmbed r { d with footer := some alloc.2 })

/-- `EmbedBuilder.SetFooterIconUrl` (embed-builder.ts lines 306-312). -/
def EmbedBuilder.SetFooterIconUrl (h : Heap) (r : Nat) (footerIconUrl : String) : Except String Heap :=
  if IsValidUrl footerIconUrl then
    let d := h.embedAt r
    let current : FooterData :=
      match d.footer with
      | some f => h.footerAt f
      | none => {}
    let alloc := h.allocFooter { current with icon_url := some footerIconUrl }
    Except.ok (alloc.1.setEmbed r { d with footer := some alloc.2 })
  else
    Except.error ("\x27footerIconUrl\x27 must be a valid URL")

/-- `EmbedBuilder.SetTimestamp` (embed-builder.ts lines 320-330): rewrite a
whole-second ISO-8601 string to the millisecond form, assert the millisecond
pattern, store. -/
def EmbedBuilder.SetTimestamp (h : Heap) (r : Nat) (timestamp : String) : Except String Heap :=
  let ts := if MatchIso8601 timestamp then ConvertToDiscordTimestamp timestamp else timestamp
  if MatchIso8601DiscordTimestamp ts then
    Except.ok (h.setEmbed r { h.embedAt r with timestamp := some ts })
  else
    Except.error
      ("\x27timestamp\x27 must be a valid ISO8601 timestamp (YYYY-MM-DDTHH:MM:SS.000Z)")

/-- `EmbedBuilder.AddField` (embed-builder.ts lines 374-379): validate name
(256) then value (1024), then append `{inline, name, value}` to `fields`. -/
def EmbedBuilder.AddField (h : Heap) (r : Nat) (name : String) (value : String)
    (inline : Option Bool) : Except String Heap :=
  if GetUtf8Length name > 256 then
    Except.error ("\x27name\x27 must be less than 256 characters")
  else if GetUtf8Length value > 1024 then
    Except.error ("\x27value\x27 must be less than 1024 characters")
  else
    let d := h.embedAt r
    let newField : RawField :=
      { inline := inline.map DynVal.bool, name := some (DynVal.str name),
        value := some (DynVal.str value) }
    Except.ok (h.setEmbed r { d with fields := some (Utility.Append (d.fields.getD []) [newField]) })

/-- `EmbedBuilder.AddFields` (embed-builder.ts lines 398-402): assert that the
whole argument list satisfies `IsArrayOfFieldData`, then append all of it. -/
def EmbedBuilder.AddFields (h : Heap) (r : Nat) (args : List RawField) : Except String Heap :=
  if IsArrayOfFieldData args then
    let d := h.embedAt r
    Except.ok (h.setEmbed r { d with fields := some (Utility.Append (d.fields.getD []) args) })
  else
    Except.error ("\x27args\x27 must be an array of IFieldData")

/-- `EmbedBuilder.SetFields` (embed-builder.ts lines 407-410): appends the
argument list with NO validation (unlike `AddFields`, despite being
documented as its alias). -/
def EmbedBuilder.SetFields (h : Heap) (r : Nat) (args : List RawField) : Except String Heap :=
  let d := h.embedAt r
  Except.ok (h.setEmbed r { d with fields := some (Utility.Append (d.fields.getD []) args) })

/-- `ContentData`: the `EmbedData` record literal owned by a `ContentBuilder`
(content-builder.ts lines 162-164); `attachments` starts as an empty array
and is never written, `embeds` holds references to embed-document tables. -/
structure ContentData where
  attachments : List Unit := []
  avatar_url : Option String := none
  content : Option String := none
  embeds : Option (List Nat) := none
  thread_name : Option String := none
  username : Option String := none
deriving Repr, DecidableEq

/-- A `ContentBuilder` instance: its message document plus the `BitField`
flag set, which starts empty (combined value 0). -/
structure ContentBuilder where
  data : ContentData := {}
  flags : Nat := 0
deriving Repr, DecidableEq

/-- Modelled from the spec: the external bit-set utility (rbx-bitfield) is a
collaborator "supporting test/set/union operations and exposing its combined
integer value"; `Intersects` tests whether any bit of `flag` is present. -/
def BitField.Intersects (value : Nat) (flag : Nat) : Bool :=
  value &&& flag != 0

/-- Modelled from the spec: the bit-set `On` operation ORs the flag in. -/
def BitField.On (value : Nat) (flag : Nat) : Nat :=
  value ||| flag

/-- `MessageFlags` (content-builder.ts lines 11-14). -/
inductive MessageFlags where
  | SUPPRESS_EMBEDS
  | SUPPRESS_NOTIFICATIONS
deriving Repr, DecidableEq

/-- The numeric value of each flag: `1 << 2` and `1 << 12`. -/
def MessageFlags.val : MessageFlags → Nat
  | MessageFlags.SUPPRESS_EMBEDS => 1 <<< 2
  | MessageFlags.SUPPRESS_NOTIFICATIONS => 1 <<< 12

/-- `ContentBuilder.SetUsername` (content-builder.ts lines 37-41). -/
def ContentBuilder.SetUsername (c : ContentBuilder) (username : String) : Except String ContentBuilder :=
  if GetUtf8Length username > 80 then
    Except.error ("Username must be less than 80 characters")
  else
    Except.ok { c with data := { c.data with username := some username } }

/-- `ContentBuilder.SetContent` (content-builder.ts lines 62-66). -/
def ContentBuilder.SetContent (c : ContentBuilder) (content : String) : Except String ContentBuilder :=
  if GetUtf8Length content > 2000 then
    Except.error ("Content must be less than 2000 characters")
  else
    Except.ok { c with data := { c.data with content := some content } }

/-- `ContentBuilder.SetThread` (content-builder.ts lines 75-79). -/
def ContentBuilder.SetThread (c : ContentBuilder) (threadName : String) : Except String ContentBuilder :=
  if GetUtf8Length threadName > 100 then
    Except.error ("Thread name must be less than 100 characters")
  else
    Except.ok { c with data := { c.data with thread_name := some threadName } }

/-- `ContentBuilder.AddFlag` (content-builder.ts lines 86-94): if the flag is
already present, `warn` and return unchanged; else OR it in.  The boolean of
the result records whether the warning was emitted. -/
def ContentBuilder.AddFlag (c : ContentBuilder) (flag : MessageFlags) : ContentBuilder × Bool :=
  if BitField.Intersects c.flags flag.val then
    (c, true)
  else
    ({ c with flags := BitField.On c.flags flag.val }, false)

/-- `ContentBuilder.AddEmbed` (content-builder.ts lines 102-107): assert the
`EmbedBuilder.Is` capability check, then append `embed.EmbedData` — the
REFERENCE to the builder's live document table — to a fresh copy of the
`embeds` array.  The heap is not touched: no snapshot of the document is
taken. -/
def ContentBuilder.AddEmbed (c : ContentBuilder) (embed : DynArg) : Except String ContentBuilder :=
  if EmbedBuilder.Is embed then
    match embed with
    | DynArg.embedBuilder r =>
        Except.ok { c with data :=
          { c.data with embeds := some (Utility.Append (c.data.embeds.getD []) [r]) } }
    | _ => Except.error ("Embed must be an EmbedBuilder")
  else
    Except.error ("Embed must be an EmbedBuilder")

/-- Emit a JSON object entry for an optional document slot: absent slots
produce no entry (a `nil` table slot does not exist in Luau). -/
def optEntry (key : String) : Option Json → List (String × Json)
  | none => []
  | some j => [(key, j)]

/-- Scalar values as JSON. -/
def DynVal.toJson : DynVal → Json
  | DynVal.str s => Json.str s
  | DynVal.bool b => Json.bool b
  | DynVal.num n => Json.num n

/-- The JSON object of an author table. -/
def serializeAuthor (h : Heap) (r : Nat) : Json :=
  let a := h.authorAt r
  Json.obj (optEntry "icon_url" (a.icon_url.map Json.str) ++
    optEntry "name" (a.name.map Json.str) ++
    optEntry "url" (a.url.map Json.str))

/-- The JSON object of a footer table. -/
def serializeFooter (h : Heap) (r : Nat) : Json :=
  let f := h.footerAt r
  Json.obj (optEntry "icon_url" (f.icon_url.map Json.str) ++
    optEntry "text" (f.text.map Json.str))

/-- The JSON object of a field table. -/
def serializeField (f : RawField) : Json :=
  Json.obj (optEntry "inline" (f.inline.map DynVal.toJson) ++
    optEntry "name" (f.name.map DynVal.toJson) ++
    optEntry "value" (f.value.map DynVal.toJson))

/-- The JSON object of an embed document, dereferencing the author and footer
sub-tables through the heap. -/
def serializeEmbed (h : Heap) (r : Nat) : Json :=
  let d := h.embedAt r
  Json.obj (optEntry "author" (d.author.map (serializeAuthor h)) ++
    optEntry "color" (d.color.map Json.num) ++
    optEntry "description" (d.description.map Json.str) ++
    optEntry "fields" (d.fields.map (fun fs => Json.arr (fs.map serializeField))) ++
    optEntry "footer" (d.footer.map (serializeFooter h)) ++
    optEntry "image" (d.image.map (fun w => Json.obj [("url", Json.str w.url)])) ++
    optEntry "thumbnail" (d.thumbnail.map (fun w => Json.obj [("url", Json.str w.url)])) ++
    optEntry "timestamp" (d.timestamp.map Json.str) ++
    optEntry "title" (d.title.map Json.str) ++
    optEntry "url" (d.url.map Json.str))

/-- `ContentBuilder.Serialize` (content-builder.ts lines 133-138): the spread
of the message document plus the `flags` key, always set to the bit set's
combined integer value. -/
def ContentBuilder.Serialize (h : Heap) (c : ContentBuilder) : List (String × Json) :=
  [("attachments", Json.arr [])] ++
  optEntry "avatar_url" (c.data.avatar_url.map Json.str) ++
  optEntry "content" (c.data.content.map Json.str) ++
  optEntry "embeds" (c.data.embeds.map (fun refs => Json.arr (refs.map (serializeEmbed h)))) ++
  optEntry "thread_name" (c.data.thread_name.map Json.str) ++
  optEntry "username" (c.data.username.map Json.str) ++
  [("flags", Json.num (Int.ofNat c.flags))]

/-- `ContentBuilder.SerializeAsJson` (content-builder.ts lines 145-150): the
JSON encoding is delegated to the host `HttpService.JSONEncode`; we model the
object it is handed, which is the same spread-plus-flags object. -/
def ContentBuilder.SerializeAsJson (h : Heap) (c : ContentBuilder) : Json :=
  Json.obj (ContentBuilder.Serialize h c)

/-- `ContentBuilder.ToJson` (content-builder.ts lines 155-160): textually the
same body as `SerializeAsJson`. -/
def ContentBuilder.ToJson (h : Heap) (c : ContentBuilder) : Json :=
  Json.obj (ContentBuilder.Serialize h c)

/-- Key lookup in a serialized JSON object (first match wins). -/
def lookupKey : List (String × Json) → String → Option Json
  | [], _ => none
  | (k, v) :: rest, key => if k = key then some v else lookupKey rest key

/-- `TimestampType` (timestamp module): a plain TypeScript enum, so the seven
members take the numeric values 0 through 6 in declaration order. -/
def TimestampType.ShortTime : Nat := 0

/-- `TimestampType.LongTime`. -/
def TimestampType.LongTime : Nat := 1

/-- `TimestampType.ShortDate`. -/
def TimestampType.ShortDate : Nat := 2

/-- `TimestampType.LongDate`. -/
def TimestampType.LongDate : Nat := 3

/-- `TimestampType.LongDateWithShortTime`. -/
def TimestampType.LongDateWithShortTime : Nat := 4

/-- `TimestampType.LongDateWithDayOfWeekAndShortTime`. -/
def TimestampType.LongDateWithDayOfWeekAndShortTime : Nat := 5

/-- `TimestampType.Relative`. -/
def TimestampType.Relative : Nat := 6

/-- `CreateTimestampForUnixTimestamp` (timestamp module): the switch over the
seven enum members, with the `default: error(...)` branch for any other
value. -/
def CreateTimestampForUnixTimestamp (timestampType : Nat) (unixTimestamp : Int) :
    Except String String :=
  if timestampType = TimestampType.ShortTime then
    Except.ok ("<t:" ++ toString unixTimestamp ++ ":t>")
  else if timestampType = TimestampType.LongTime then
    Except.ok ("<t:" ++ toString unixTimestamp ++ ":T>")
  else if timestampType = TimestampType.ShortDate then
    Except.ok ("<t:" ++ toString unixTimestamp ++ ":d>")
  else if timestampType = TimestampType.LongDate then
    Except.ok ("<t:" ++ toString unixTimestamp ++ ":D>")
  else if timestampType = TimestampType.LongDateWithShortTime then
    Except.ok ("<t:" ++ toString unixTimestamp ++ ":f>")
  else if timestampType = TimestampType.LongDateWithDayOfWeekAndShortTime then
    Except.ok ("<t:" ++ toString unixTimestamp ++ ":F>")
  else if timestampType = TimestampType.Relative then
    Except.ok ("<t:" ++ toString unixTimestamp ++ ":R>")
  else
    Except.error ("Invalid timestamp type " ++ toString timestampType)

/-- A string of `n` copies of the character x, used for boundary tests. -/
def xRep (n : Nat) : String :=
  String.mk (List.replicate n 'x')

/-- The heap after `SetAuthorUrl "https://e.com"` on a fresh embed builder
(author table 0 allocated, document's author slot pointing at it). -/
def cowHeap1 : Heap :=
  { authors := [{ url := some "https://e.com" }],
    embeds := [{ author := some 0 }] }

/-- The heap after a further `SetAuthorName "me"`: a second author table is
allocated (a clone of table 0 plus the name) and the document now points at
it; table 0 is untouched. -/
def cowHeap2 : Heap :=
  { authors := [{ url := some "https://e.com" },
                { name := some "me", url := some "https://e.com" }],
    embeds := [{ author := some 1 }] }

/-- The heap after `SetAuthorName "me"` on a fresh embed builder. -/
def cowHeap3 : Heap :=
  { authors := [{ name := some "me" }],
    embeds := [{ author := some 0 }] }

/-- The heap after a further `SetAuthorUrl "https://e.com"`: the clone keeps
the name written first and adds the url. -/
def cowHeap4 : Heap :=
  { authors := [{ name := some "me" },
                { name := some "me", url := some "https://e.com" }],
    embeds := [{ author := some 1 }] }

theorem GetUtf8Length_xRep (n : Nat) : GetUtf8Length (xRep n) = n := by
  show (List.replicate n 'x').length = n
  exact List.length_replicate n 'x'

theorem matchPat_length : ∀ (ps : List PatItem) (cs : List Char),
    matchPat ps cs = true → cs.length = ps.length := by
  intro ps
  induction ps with
  | nil =>
    intro cs hm
    cases cs with
    | nil => rfl
    | cons c cs => simp [matchPat] at hm
  | cons p ps ih =>
    intro cs hm
    cases cs with
    | nil => cases p <;> simp [matchPat] at hm
    | cons c cs =>
      cases p with
      | digit =>
        rw [matchPat, Bool.and_eq_true] at hm
        simp [ih cs hm.2]
      | lit a =>
        rw [matchPat, Bool.and_eq_true] at hm
        simp [ih cs hm.2]

theorem matchPat_append : ∀ (ps qs : List PatItem) (cs ds : List Char),
    cs.length = ps.length →
    matchPat (ps ++ qs) (cs ++ ds) = (matchPat ps cs && matchPat qs ds) := by
  intro ps
  induction ps with
  | nil =>
    intro qs cs ds hlen
    cases cs with
    | nil => simp [matchPat]
    | cons c cs => simp at hlen
  | cons p ps ih =>
    intro qs cs ds hlen
    cases cs with
    | nil => simp at hlen
    | cons c cs =>
      have hlen2 : cs.length = ps.length := by simpa using hlen
      cases p with
      | digit => simp [matchPat, ih qs cs ds hlen2, Bool.and_assoc]
      | lit a => simp [matchPat, ih qs cs ds hlen2, Bool.and_assoc]

theorem convert_preserves_match (s : List Char) (hm : matchPat iso8601Pattern s = true) :
    matchPat iso8601DiscordPattern (s.dropLast ++ ['.', '0', '0', '0', 'Z']) = true := by
  have hlen : s.length = 20 := by
    have h0 := matchPat_length _ _ hm
    rw [show iso8601Pattern.length = 20 from rfl] at h0
    exact h0
  have hne : s ≠ [] := by
    intro e
    rw [e] at hlen
    simp at hlen
  have hdec : s.dropLast ++ [s.getLast hne] = s := List.dropLast_append_getLast hne
  have hdlen : s.dropLast.length = isoDatePrefix.length := by
    rw [List.length_dropLast, hlen]
    rfl
  rw [show iso8601Pattern = isoDatePrefix ++ [PatItem.lit 'Z'] from rfl, ← hdec,
    matchPat_append _ _ _ _ hdlen, Bool.and_eq_true] at hm
  rw [show iso8601DiscordPattern = isoDatePrefix ++
      [PatItem.lit '.', PatItem.digit, PatItem.digit, PatItem.digit, PatItem.lit 'Z'] from rfl,
    matchPat_append _ _ _ _ hdlen, hm.1]
  decide

theorem discord_not_iso (s : String) (hm : MatchIso8601DiscordTimestamp s = true) :
    MatchIso8601 s = false := by
  have h24 : s.data.length = 24 := by
    have h0 := matchPat_length _ _ hm
    rw [show iso8601DiscordPattern.length = 24 from rfl] at h0
    exact h0
  cases hi : matchPat iso8601Pattern s.data with
  | false => exact hi
  | true =>
    have h20 := matchPat_length _ _ hi
    rw [show iso8601Pattern.length = 20 from rfl] at h20
    omega

/-- C3: `SetTimestamp`, given a string matching the whole-second ISO-8601
pattern, stores the millisecond form obtained by dropping the trailing `Z`
and appending `.000Z`; given a string matching the millisecond pattern it
stores it unchanged; for a string matching neither pattern it fails with the
validation error and stores nothing (no state is produced). -/
theorem setTimestamp_normalization (h : Heap) (r : Nat) (s : String) :
    (MatchIso8601 s = true →
      EmbedBuilder.SetTimestamp h r s =
        Except.ok (h.setEmbed r { h.embedAt r with
          timestamp := some (String.mk (s.data.dropLast ++ ['.', '0', '0', '0', 'Z'])) })) ∧
    (MatchIso8601DiscordTimestamp s = true →
      EmbedBuilder.SetTimestamp h r s =
        Except.ok (h.setEmbed r { h.embedAt r with timestamp := some s })) ∧
    (MatchIso8601 s = false → MatchIso8601DiscordTimestamp s = false →
      EmbedBuilder.SetTimestamp h r s =
        Except.error
          ("\x27timestamp\x27 must be a valid ISO8601 timestamp (YYYY-MM-DDTHH:MM:SS.000Z)")) := by
  refine ⟨?_, ?_, ?_⟩
  · intro hm
    have hc : MatchIso8601DiscordTimestamp
        (String.mk (s.data.dropLast ++ ['.', '0', '0', '0', 'Z'])) = true :=
      convert_preserves_match s.data hm
    simp [EmbedBuilder.SetTimestamp, hm, hc, ConvertToDiscordTimestamp]
  · intro hm
    have hn : MatchIso8601 s = false := discord_not_iso s hm
    simp [EmbedBuilder.SetTimestamp, hn, hm]
  · intro h1 h2
    simp [EmbedBuilder.SetTimestamp, h1, h2]

/-- Witness for C3: the three branches at the spec's concrete inputs. -/
theorem setTimestamp_normalization_witness :
    EmbedBuilder.SetTimestamp { embeds := [{}] } 0 "2023-07-25T11:12:30Z" =
      Except.ok { embeds := [{ timestamp := some "2023-07-25T11:12:30.000Z" }] } ∧
    EmbedBuilder.SetTimestamp { embeds := [{}] } 0 "2023-07-25T11:12:30.500Z" =
      Except.ok { embeds := [{ timestamp := some "2023-07-25T11:12:30.500Z" }] } ∧
    EmbedBuilder.SetTimestamp { embeds := [{}] } 0 "2023-07-25" =
      Except.error
        ("\x27timestamp\x27 must be a valid ISO8601 timestamp (YYYY-MM-DDTHH:MM:SS.000Z)") := by
  refine ⟨?_, ?_, ?_⟩
  · exact (setTimestamp_normalization { embeds := [{}] } 0 "2023-07-25T11:12:30Z").1 (by decide)
  · exact (setTimestamp_normalization { embeds := [{}] } 0 "2023-07-25T11:12:30.500Z").2.1
      (by decide)
  · exact (setTimestamp_normalization { embeds := [{}] } 0 "2023-07-25").2.2 (by decide) (by decide)

theorem embedAt_setEmbed_self (h : Heap) (r : Nat) (d : EmbedData) (hr : r < h.embeds.length) :
    (h.setEmbed r d).embedAt r = d := by
  simp [Heap.setEmbed, Heap.embedAt, List.getElem?_set_self hr]

theorem authorAt_setEmbed (h : Heap) (r : Nat) (d : EmbedData) (i : Nat) :
    (h.setEmbed r d).authorAt i = h.authorAt i := rfl

theorem footerAt_setEmbed (h : Heap) (r : Nat) (d : EmbedData) (i : Nat) :
    (h.setEmbed r d).footerAt i = h.footerAt i := rfl

theorem authorAt_allocAuthor_old (h : Heap) (a : AuthorData) (i : Nat)
    (hi : i < h.authors.length) : (h.allocAuthor a).1.authorAt i = h.authorAt i := by
  simp [Heap.allocAuthor, Heap.authorAt, List.getElem?_append_left hi]

theorem authorAt_allocAuthor_new (h : Heap) (a : AuthorData) :
    (h.allocAuthor a).1.authorAt h.authors.length = a := by
  simp [Heap.allocAuthor, Heap.authorAt, List.getElem?_concat_length]

theorem footerAt_allocFooter_old (h : Heap) (f : FooterData) (i : Nat)
    (hi : i < h.footers.length) : (h.allocFooter f).1.footerAt i = h.footerAt i := by
  simp [Heap.allocFooter, Heap.footerAt, List.getElem?_append_left hi]

theorem footerAt_allocFooter_new (h : Heap) (f : FooterData) :
    (h.allocFooter f).1.footerAt h.footers.length = f := by
  simp [Heap.allocFooter, Heap.footerAt, List.getElem?_concat_length]

theorem authorAt_allocFooter (h : Heap) (f : FooterData) (i : Nat) :
    (h.allocFooter f).1.authorAt i = h.authorAt i := rfl

theorem footerAt_allocAuthor (h : Heap) (a : AuthorData) (i : Nat) :
    (h.allocAuthor a).1.footerAt i = h.footerAt i := rfl

theorem embedAt_allocAuthor_setEmbed (h : Heap) (a : AuthorData) (r : Nat) (d : EmbedData)
    (hr : r < h.embeds.length) : ((h.allocAuthor a).1.setEmbed r d).embedAt r = d :=
  embedAt_setEmbed_self (h.allocAuthor a).1 r d hr

theorem embedAt_allocFooter_setEmbed (h : Heap) (f : FooterData) (r : Nat) (d : EmbedData)
    (hr : r < h.embeds.length) : ((h.allocFooter f).1.setEmbed r d).embedAt r = d :=
  embedAt_setEmbed_self (h.allocFooter f).1 r d hr

/-- C4: every length-bounded string setter (title 256, description 4096,
author name 256, footer text 2048, field name 256, field value 1024,
username 80, content 2000, thread name 100) fails with a validation error —
producing no updated state, so the document is unchanged — whenever the
argument's code-point length exceeds the bound, and succeeds with the
corresponding document slot equal to the argument exactly whenever the
length is at most the bound (boundary inclusive; a Lean string is always
validly encoded). -/
theorem bounded_setters_validate :
    (∀ h r s, (256 < GetUtf8Length s →
        ∃ msg, EmbedBuilder.SetTitle h r s = Except.error msg) ∧
      (GetUtf8Length s ≤ 256 → r < h.embeds.length →
        ∃ h2, EmbedBuilder.SetTitle h r s = Except.ok h2 ∧
          (h2.embedAt r).title = some s)) ∧
    (∀ h r s, (4096 < GetUtf8Length s →
        ∃ msg, EmbedBuilder.SetDescription h r s = Except.error msg) ∧
      (GetUtf8Length s ≤ 4096 → r < h.embeds.length →
        ∃ h2, EmbedBuilder.SetDescription h r s = Except.ok h2 ∧
          (h2.embedAt r).description = some s)) ∧
    (∀ h r s, (256 < GetUtf8Length s →
        ∃ msg, EmbedBuilder.SetAuthorName h r s = Except.error msg) ∧
      (GetUtf8Length s ≤ 256 → r < h.embeds.length →
        ∃ h2 a, EmbedBuilder.SetAuthorName h r s = Except.ok h2 ∧
          (h2.embedAt r).author = some a ∧ (h2.authorAt a).name = some s)) ∧
    (∀ h r s, (2048 < GetUtf8Length s →
        ∃ msg, EmbedBuilder.SetFooterText h r s = Except.error msg) ∧
      (GetUtf8Length s ≤ 2048 → r < h.embeds.length →
        ∃ h2 f, EmbedBuilder.SetFooterText h r s = Except.ok h2 ∧
          (h2.embedAt r).footer = some f ∧ (h2.footerAt f).text = some s)) ∧
    (∀ h r nm v inl, (256 < GetUtf8Length nm →
        ∃ msg, EmbedBuilder.AddField h r nm v inl = Except.error msg) ∧
      (GetUtf8Length nm ≤ 256 → 1024 < GetUtf8Length v →
        ∃ msg, EmbedBuilder.AddField h r nm v inl = Except.error msg) ∧
      (GetUtf8Length nm ≤ 256 → GetUtf8Length v ≤ 1024 → r < h.embeds.length →
        ∃ h2, EmbedBuilder.AddField h r nm v inl = Except.ok h2 ∧
          (h2.embedAt r).fields = some ((h.embedAt r).fields.getD [] ++
            [{ inline := inl.map DynVal.bool, name := some (DynVal.str nm),
               value := some (DynVal.str v) }]))) ∧
    (∀ c s, (80 < GetUtf8Length s →
        ∃ msg, ContentBuilder.SetUsername c s = Except.error msg) ∧
      (GetUtf8Length s ≤ 80 →
        ∃ c2, ContentBuilder.SetUsername c s = Except.ok c2 ∧
          c2.data.username = some s)) ∧
    (∀ c s, (2000 < GetUtf8Length s →
        ∃ msg, ContentBuilder.SetContent c s = Except.error msg) ∧
      (GetUtf8Length s ≤ 2000 →
        ∃ c2, ContentBuilder.SetContent c s = Except.ok c2 ∧
          c2.data.content = some s)) ∧
    (∀ c s, (100 < GetUtf8Length s →
        ∃ msg, ContentBuilder.SetThread c s = Except.error msg) ∧
      (GetUtf8Length s ≤ 100 →
        ∃ c2, ContentBuilder.SetThread c s = Except.ok c2 ∧
          c2.data.thread_name = some s)) := by
  refine ⟨?_, ?_, ?_, ?_, ?_, ?_, ?_, ?_⟩
  · intro h r s
    refine ⟨fun hlen => ⟨"\x27title\x27 must be less than 256 characters",
      by simp [EmbedBuilder.SetTitle, hlen]⟩, fun hle hr => ?_⟩
    have hcond : ¬ (256 < GetUtf8Length s) := Nat.not_lt.mpr hle
    cases he : EmbedBuilder.SetTitle h r s with
    | error m => simp [EmbedBuilder.SetTitle, if_neg hcond] at he
    | ok h2 =>
        simp only [EmbedBuilder.SetTitle, if_neg hcond, Except.ok.injEq] at he
        exact ⟨h2, rfl, by rw [← he, embedAt_setEmbed_self h r _ hr]⟩
  · intro h r s
    refine ⟨fun hlen => ⟨"\x27description\x27 must be less than 2048 characters",
      by simp [EmbedBuilder.SetDescription, hlen]⟩, fun hle hr => ?_⟩
    have hcond : ¬ (4096 < GetUtf8Length s) := Nat.not_lt.mpr hle
    cases he : EmbedBuilder.SetDescription h r s with
    | error m => simp [EmbedBuilder.SetDescription, if_neg hcond] at he
    | ok h2 =>
        simp only [EmbedBuilder.SetDescription, if_neg hcond, Except.ok.injEq] at he
        exact ⟨h2, rfl, by rw [← he, embedAt_setEmbed_self h r _ hr]⟩
  · intro h r s
    refine ⟨fun hlen => ⟨"\x27authorName\x27 must be less than 256 characters",
      by simp [EmbedBuilder.SetAuthorName, hlen]⟩, fun hle hr => ?_⟩
    have hcond : ¬ (256 < GetUtf8Length s) := Nat.not_lt.mpr hle
    cases he : EmbedBuilder.SetAuthorName h r s with
    | error m => simp [EmbedBuilder.SetAuthorName, if_neg hcond] at he
    | ok h2 =>
        simp only [EmbedBuilder.SetAuthorName, if_neg hcond, Except.ok.injEq] at he
        refine ⟨h2, h.authors.length, rfl, ?_, ?_⟩
        · rw [← he, embedAt_allocAuthor_setEmbed _ _ r _ hr]
          rfl
        · rw [← he, authorAt_setEmbed, authorAt_allocAuthor_new]
  · intro h r s
    refine ⟨fun hlen => ⟨"\x27footerText\x27 must be less than 2048 characters",
      by simp [EmbedBuilder.SetFooterText, hlen]⟩, fun hle hr => ?_⟩
    have hcond : ¬ (2048 < GetUtf8Length s) := Nat.not_lt.mpr hle
    cases he : EmbedBuilder.SetFooterText h r s with
    | error m => simp [EmbedBuilder.SetFooterText, if_neg hcond] at he
    | ok h2 =>
        simp only [EmbedBuilder.SetFooterText, if_neg hcond, Except.ok.injEq] at he
        refine ⟨h2, h.footers.length, rfl, ?_, ?_⟩
        · rw [← he, embedAt_allocFooter_setEmbed _ _ r _ hr]
          rfl
        · rw [← he, footerAt_setEmbed, footerAt_allocFooter_new]
  · intro h r nm v inl
    refine ⟨fun hlen => ⟨"\x27name\x27 must be less than 256 characters",
      by simp [EmbedBuilder.AddField, hlen]⟩,
      fun hle hlen => ⟨"\x27value\x27 must be less than 1024 characters",
      by simp [EmbedBuilder.AddField, Nat.not_lt.mpr hle, hlen]⟩,
      fun hle1 hle2 hr => ?_⟩
    have hc1 : ¬ (256 < GetUtf8Length nm) := Nat.not_lt.mpr hle1
    have hc2 : ¬ (1024 < GetUtf8Length v) := Nat.not_lt.mpr hle2
    cases he : EmbedBuilder.AddField h r nm v inl with
    | error m => simp [EmbedBuilder.AddField, if_neg hc1, if_neg hc2] at he
    | ok h2 =>
        simp only [EmbedBuilder.AddField, if_neg hc1, if_neg hc2, Except.ok.injEq] at he
        exact ⟨h2, rfl, by rw [← he, embedAt_setEmbed_self h r _ hr]; rfl⟩
  · intro c s
    refine ⟨fun hlen => ⟨"Username must be less than 80 characters",
      by simp [ContentBuilder.SetUsername, hlen]⟩, fun hle => ?_⟩
    have hcond : ¬ (80 < GetUtf8Length s) := Nat.not_lt.mpr hle
    cases he : ContentBuilder.SetUsername c s with
    | error m => simp [ContentBuilder.SetUsername, if_neg hcond] at he
    | ok c2 =>
        simp only [ContentBuilder.SetUsername, if_neg hcond, Except.ok.injEq] at he
        exact ⟨c2, rfl, by rw [← he]⟩
  · intro c s
    refine ⟨fun hlen => ⟨"Content must be less than 2000 characters",
      by simp [ContentBuilder.SetContent, hlen]⟩, fun hle => ?_⟩
    have hcond : ¬ (2000 < GetUtf8Length s) := Nat.not_lt.mpr hle
    cases he : ContentBuilder.SetContent c s with
    | error m => simp [ContentBuilder.SetContent, if_neg hcond] at he
    | ok c2 =>
        simp only [ContentBuilder.SetContent, if_neg hcond, Except.ok.injEq] at he
        exact ⟨c2, rfl, by rw [← he]⟩
  · intro c s
    refine ⟨fun hlen => ⟨"Thread name must be less than 100 characters",
      by simp [ContentBuilder.SetThread, hlen]⟩, fun hle => ?_⟩
    have hcond : ¬ (100 < GetUtf8Length s) := Nat.not_lt.mpr hle
    cases he : ContentBuilder.SetThread c s with
    | error m => simp [ContentBuilder.SetThread, if_neg hcond] at he
    | ok c2 =>
        simp only [ContentBuilder.SetThread, if_neg hcond, Except.ok.injEq] at he
        exact ⟨c2, rfl, by rw [← he]⟩

/-- Witness for C4: both branches of every bounded setter at its exact
boundary and one past it. -/
theorem bounded_setters_validate_witness :
    (∃ msg, EmbedBuilder.SetTitle { embeds := [{}] } 0 (xRep 257) = Except.error msg) ∧
    (∃ h2, EmbedBuilder.SetTitle { embeds := [{}] } 0 (xRep 256) = Except.ok h2 ∧
      (h2.embedAt 0).title = some (xRep 256)) ∧
    (∃ msg, EmbedBuilder.SetDescription { embeds := [{}] } 0 (xRep 4097) = Except.error msg) ∧
    (∃ h2, EmbedBuilder.SetDescription { embeds := [{}] } 0 (xRep 4096) = Except.ok h2 ∧
      (h2.embedAt 0).description = some (xRep 4096)) ∧
    (∃ msg, EmbedBuilder.SetAuthorName { embeds := [{}] } 0 (xRep 257) = Except.error msg) ∧
    (∃ h2 a, EmbedBuilder.SetAuthorName { embeds := [{}] } 0 (xRep 256) = Except.ok h2 ∧
      (h2.embedAt 0).author = some a ∧ (h2.authorAt a).name = some (xRep 256)) ∧
    (∃ msg, EmbedBuilder.SetFooterText { embeds := [{}] } 0 (xRep 2049) = Except.error msg) ∧
    (∃ h2 f, EmbedBuilder.SetFooterText { embeds := [{}] } 0 (xRep 2048) = Except.ok h2 ∧
      (h2.embedAt 0).footer = some f ∧ (h2.footerAt f).text = some (xRep 2048)) ∧
    (∃ msg, EmbedBuilder.AddField { embeds := [{}] } 0 (xRep 257) "v" none =
      Except.error msg) ∧
    (∃ msg, EmbedBuilder.AddField { embeds := [{}] } 0 "n" (xRep 1025) none =
      Except.error msg) ∧
    (∃ h2, EmbedBuilder.AddField { embeds := [{}] } 0 "n" "v" none = Except.ok h2 ∧
      (h2.embedAt 0).fields = some [({ inline := none, name := some (DynVal.str "n"),
                                       value := some (DynVal.str "v") } : RawField)]) ∧
    (∃ msg, ContentBuilder.SetUsername {} (xRep 81) = Except.error msg) ∧
    (∃ c2, ContentBuilder.SetUsername {} (xRep 80) = Except.ok c2 ∧
      c2.data.username = some (xRep 80)) ∧
    (∃ msg, ContentBuilder.SetContent {} (xRep 2001) = Except.error msg) ∧
    (∃ c2, ContentBuilder.SetContent {} (xRep 2000) = Except.ok c2 ∧
      c2.data.content = some (xRep 2000)) ∧
    (∃ msg, ContentBuilder.SetThread {} (xRep 101) = Except.error msg) ∧
    (∃ c2, ContentBuilder.SetThread {} (xRep 100) = Except.ok c2 ∧
      c2.data.thread_name = some (xRep 100)) := by
  refine ⟨?_, ?_, ?_, ?_, ?_, ?_, ?_, ?_, ?_, ?_, ?_, ?_, ?_, ?_, ?_, ?_, ?_⟩
  · exact (bounded_setters_validate.1 { embeds := [{}] } 0 (xRep 257)).1
      (by simp [GetUtf8Length_xRep])
  · exact (bounded_setters_validate.1 { embeds := [{}] } 0 (xRep 256)).2
      (by simp [GetUtf8Length_xRep]) (by decide)
  · exact (bounded_setters_validate.2.1 { embeds := [{}] } 0 (xRep 4097)).1
      (by simp [GetUtf8Length_xRep])
  · exact (bounded_setters_validate.2.1 { embeds := [{}] } 0 (xRep 4096)).2
      (by simp [GetUtf8Length_xRep]) (by decide)
  · exact (bounded_setters_validate.2.2.1 { embeds := [{}] } 0 (xRep 257)).1
      (by simp [GetUtf8Length_xRep])
  · exact (bounded_setters_validate.2.2.1 { embeds := [{}] } 0 (xRep 256)).2
      (by simp [GetUtf8Length_xRep]) (by decide)
  · exact (bounded_setters_validate.2.2.2.1 { embeds := [{}] } 0 (xRep 2049)).1
      (by simp [GetUtf8Length_xRep])
  · exact (bounded_setters_validate.2.2.2.1 { embeds := [{}] } 0 (xRep 2048)).2
      (by simp [GetUtf8Length_xRep]) (by decide)
  · exact (bounded_setters_validate.2.2.2.2.1 { embeds := [{}] } 0 (xRep 257) "v" none).1
      (by simp [GetUtf8Length_xRep])
  · exact (bounded_setters_validate.2.2.2.2.1 { embeds := [{}] } 0 "n" (xRep 1025) none).2.1
      (by decide) (by simp [GetUtf8Length_xRep])
  · exact (bounded_setters_validate.2.2.2.2.1 { embeds := [{}] } 0 "n" "v" none).2.2
      (by decide) (by decide) (by decide)
  · exact (bounded_setters_validate.2.2.2.2.2.1 {} (xRep 81)).1
      (by simp [GetUtf8Length_xRep])
  · exact (bounded_setters_validate.2.2.2.2.2.1 {} (xRep 80)).2
      (by simp [GetUtf8Length_xRep])
  · exact (bounded_setters_validate.2.2.2.2.2.2.1 {} (xRep 2001)).1
      (by simp [GetUtf8Length_xRep])
  · exact (bounded_setters_validate.2.2.2.2.2.2.1 {} (xRep 2000)).2
      (by simp [GetUtf8Length_xRep])
  · exact (bounded_setters_validate.2.2.2.2.2.2.2 {} (xRep 101)).1
      (by simp [GetUtf8Length_xRep])
  · exact (bounded_setters_validate.2.2.2.2.2.2.2 {} (xRep 100)).2
      (by simp [GetUtf8Length_xRep])

/-- Success characterisation of `EmbedBuilder.SetAuthorName`: it clones the CURRENT
author table (or the empty default), writes `name` on the clone, installs
the clone at a fresh reference in the document, and leaves every existing
table of both pools untouched. -/
theorem SetAuthorName_clones (h : Heap) (r : Nat) (s : String) (h2 : Heap)
    (hr : r < h.embeds.length) (he : EmbedBuilder.SetAuthorName h r s = Except.ok h2) :
    h2.embedAt r = { h.embedAt r with author := some h.authors.length } ∧
    h2.authorAt h.authors.length =
      { (match (h.embedAt r).author with
          | some a => h.authorAt a
          | none => {}) with name := some s } ∧
    h2.authors.length = h.authors.length + 1 ∧
    h2.embeds.length = h.embeds.length ∧
    (∀ i, i < h.authors.length → h2.authorAt i = h.authorAt i) ∧
    (∀ j, h2.footerAt j = h.footerAt j) := by
  by_cases hc : 256 < GetUtf8Length s
  · simp [EmbedBuilder.SetAuthorName, hc] at he
  · simp only [EmbedBuilder.SetAuthorName, if_neg hc, Except.ok.injEq] at he
    refine ⟨?_, ?_, ?_, ?_, ?_, ?_⟩
    · rw [← he, embedAt_allocAuthor_setEmbed _ _ r _ hr]
      rfl
    · rw [← he, authorAt_setEmbed, authorAt_allocAuthor_new]
    · rw [← he]
      simp [Heap.setEmbed, Heap.allocAuthor]
    · rw [← he]
      simp [Heap.setEmbed, Heap.allocAuthor]
    · intro i hi
      rw [← he, authorAt_setEmbed, authorAt_allocAuthor_old _ _ _ hi]
    · intro j
      rw [← he, footerAt_setEmbed, footerAt_allocAuthor]

/-- Success characterisation of `EmbedBuilder.SetAuthorUrl`: it clones the CURRENT
author table (or the empty default), writes `url` on the clone, installs
the clone at a fresh reference in the document, and leaves every existing
table of both pools untouched. -/
theorem SetAuthorUrl_clones (h : Heap) (r : Nat) (s : String) (h2 : Heap)
    (hr : r < h.embeds.length) (he : EmbedBuilder.SetAuthorUrl h r s = Except.ok h2) :
    h2.embedAt r = { h.embedAt r with author := some h.authors.length } ∧
    h2.authorAt h.authors.length =
      { (match (h.embedAt r).author with
          | some a => h.authorAt a
          | none => {}) with url := some s } ∧
    h2.authors.length = h.authors.length + 1 ∧
    h2.embeds.length = h.embeds.length ∧
    (∀ i, i < h.authors.length → h2.authorAt i = h.authorAt i) ∧
    (∀ j, h2.footerAt j = h.footerAt j) := by
  by_cases hc : IsValidUrl s
  · simp only [EmbedBuilder.SetAuthorUrl, if_pos hc, Except.ok.injEq] at he
    refine ⟨?_, ?_, ?_, ?_, ?_, ?_⟩
    · rw [← he, embedAt_allocAuthor_setEmbed _ _ r _ hr]
      rfl
    · rw [← he, authorAt_setEmbed, authorAt_allocAuthor_new]
    · rw [← he]
      simp [Heap.setEmbed, Heap.allocAuthor]
    · rw [← he]
      simp [Heap.setEmbed, Heap.allocAuthor]
    · intro i hi
      rw [← he, authorAt_setEmbed, authorAt_allocAuthor_old _ _ _ hi]
    · intro j
      rw [← he, footerAt_setEmbed, footerAt_allocAuthor]
  · simp [EmbedBuilder.SetAuthorUrl, hc] at he

/-- Success characterisation of `EmbedBuilder.SetAuthorIconUrl`: it clones the CURRENT
author table (or the empty default), writes `icon_url` on the clone, installs
the clone at a fresh reference in the document, and leaves every existing
table of both pools untouched. -/
theorem SetAuthorIconUrl_clones (h : Heap) (r : Nat) (s : String) (h2 : Heap)
    (hr : r < h.embeds.length) (he : EmbedBuilder.SetAuthorIconUrl h r s = Except.ok h2) :
    h2.embedAt r = { h.embedAt r with author := some h.authors.length } ∧
    h2.authorAt h.authors.length =
      { (match (h.embedAt r).author with
          | some a => h.authorAt a
          | none => {}) with icon_url := some s } ∧
    h2.authors.length = h.authors.length + 1 ∧
    h2.embeds.length = h.embeds.length ∧
    (∀ i, i < h.authors.length → h2.authorAt i = h.authorAt i) ∧
    (∀ j, h2.footerAt j = h.footerAt j) := by
  by_cases hc : IsValidUrl s
  · simp only [EmbedBuilder.SetAuthorIconUrl, if_pos hc, Except.ok.injEq] at he
    refine ⟨?_, ?_, ?_, ?_, ?_, ?_⟩
    · rw [← he, embedAt_allocAuthor_setEmbed _ _ r _ hr]
      rfl
    · rw [← he, authorAt_setEmbed, authorAt_allocAuthor_new]
    · rw [← he]
      simp [Heap.setEmbed, Heap.allocAuthor]
    · rw [← he]
      simp [Heap.setEmbed, Heap.allocAuthor]
    · intro i hi
      rw [← he, authorAt_setEmbed, authorAt_allocAuthor_old _ _ _ hi]
    · intro j
      rw [← he, footerAt_setEmbed, footerAt_allocAuthor]
  · simp [EmbedBuilder.SetAuthorIconUrl, hc] at he

/-- Success characterisation of `EmbedBuilder.SetFooterText`: it clones the CURRENT
footer table (or the empty default), writes `text` on the clone, installs
the clone at a fresh reference in the document, and leaves every existing
table of both pools untouched. -/
theorem SetFooterText_clones (h : Heap) (r : Nat) (s : String) (h2 : Heap)
    (hr : r < h.embeds.length) (he : EmbedBuilder.SetFooterText h r s = Except.ok h2) :
    h2.embedAt r = { h.embedAt r with footer := some h.footers.length } ∧
    h2.footerAt h.footers.length =
      { (match (h.embedAt r).footer with
          | some f => h.footerAt f
          | none => {}) with text := some s } ∧
    h2.footers.length = h.footers.length + 1 ∧
    h2.embeds.length = h.embeds.length ∧
    (∀ j, j < h.footers.length → h2.footerAt j = h.footerAt j) ∧
    (∀ i, h2.authorAt i = h.authorAt i) := by
  by_cases hc : 2048 < GetUtf8Length s
  · simp [EmbedBuilder.SetFooterText, hc] at he
  · simp only [EmbedBuilder.SetFooterText, if_neg hc, Except.ok.injEq] at he
    refine ⟨?_, ?_, ?_, ?_, ?_, ?_⟩
    · rw [← he, embedAt_allocFooter_setEmbed _ _ r _ hr]
      rfl
    · rw [← he, footerAt_setEmbed, footerAt_allocFooter_new]
    · rw [← he]
      simp [Heap.setEmbed, Heap.allocFooter]
    · rw [← he]
      simp [Heap.setEmbed, Heap.allocFooter]
    · intro i hi
      rw [← he, footerAt_setEmbed, footerAt_allocFooter_old _ _ _ hi]
    · intro j
      rw [← he, authorAt_setEmbed, authorAt_allocFooter]

/-- Success characterisation of `EmbedBuilder.SetFooterIconUrl`: it clones the CURRENT
footer table (or the empty default), writes `icon_url` on the clone, installs
the clone at a fresh reference in the document, and leaves every existing
table of both pools untouched. -/
theorem SetFooterIconUrl_clones (h : Heap) (r : Nat) (s : String) (h2 : Heap)
    (hr : r < h.embeds.length) (he : EmbedBuilder.SetFooterIconUrl h r s = Except.ok h2) :
    h2.embedAt r = { h.embedAt r with footer := some h.footers.length } ∧
    h2.footerAt h.footers.length =
      { (match (h.embedAt r).footer with
          | some f => h.footerAt f
          | none => {}) with icon_url := some s } ∧
    h2.footers.length = h.footers.length + 1 ∧
    h2.embeds.length = h.embeds.length ∧
    (∀ j, j < h.footers.length → h2.footerAt j = h.footerAt j) ∧
    (∀ i, h2.authorAt i = h.authorAt i) := by
  by_cases hc : IsValidUrl s
  · simp only [EmbedBuilder.SetFooterIconUrl, if_pos hc, Except.ok.injEq] at he
    refine ⟨?_, ?_, ?_, ?_, ?_, ?_⟩
    · rw [← he, embedAt_allocFooter_setEmbed _ _ r _ hr]
      rfl
    · rw [← he, footerAt_setEmbed, footerAt_allocFooter_new]
    · rw [← he]
      simp [Heap.setEmbed, Heap.allocFooter]
    · rw [← he]
      simp [Heap.setEmbed, Heap.allocFooter]
    · intro i hi
      rw [← he, footerAt_setEmbed, footerAt_allocFooter_old _ _ _ hi]
    · intro j
      rw [← he, authorAt_setEmbed, authorAt_allocFooter]
  · simp [EmbedBuilder.SetFooterIconUrl, hc] at he

/-- C5: the author (and footer) sub-objects are copy-on-write.  Conjunct 1:
in the spec's scenario — `SetAuthorUrl u` on a document without an author,
then `SetAuthorName n` — the author table `a1` read after the first call
still holds only `url = u` (and no name) after the second call, while the
document's current author table `a2` holds both `url = u` and `name = n`.
Conjuncts 2-11: each of the five author/footer sub-setters never changes any
previously existing author or footer table.  Conjuncts 12-16: full success
characterisation of each of the five sub-setters — each clones the CURRENT
sub-object (or the empty default), writes its one field on the clone, and
installs the clone at a fresh reference, leaving both pools otherwise
intact.  Conjuncts 17-24: hence for every ordered pair of distinct author
sub-setters, and of distinct footer sub-setters, running the first then the
second leaves the sub-object read in between entirely unchanged (it keeps
the first field and never acquires the second) while the builder's current
sub-object carries both written fields. -/
theorem author_footer_copy_on_write :
    (∀ h r u n h1 h2, r < h.embeds.length → (h.embedAt r).author = none →
      EmbedBuilder.SetAuthorUrl h r u = Except.ok h1 →
      EmbedBuilder.SetAuthorName h1 r n = Except.ok h2 →
      ∃ a1 a2,
        (h1.embedAt r).author = some a1 ∧
        h1.authorAt a1 = { url := some u } ∧
        h2.authorAt a1 = { url := some u } ∧
        (h2.embedAt r).author = some a2 ∧
        h2.authorAt a2 = { name := some n, url := some u }) ∧
    (∀ h r s h2 i, EmbedBuilder.SetAuthorName h r s = Except.ok h2 →
      i < h.authors.length → h2.authorAt i = h.authorAt i) ∧
    (∀ h r u h2 i, EmbedBuilder.SetAuthorUrl h r u = Except.ok h2 →
      i < h.authors.length → h2.authorAt i = h.authorAt i) ∧
    (∀ h r u h2 i, EmbedBuilder.SetAuthorIconUrl h r u = Except.ok h2 →
      i < h.authors.length → h2.authorAt i = h.authorAt i) ∧
    (∀ h r s h2 j, EmbedBuilder.SetFooterText h r s = Except.ok h2 →
      j < h.footers.length → h2.footerAt j = h.footerAt j) ∧
    (∀ h r u h2 j, EmbedBuilder.SetFooterIconUrl h r u = Except.ok h2 →
      j < h.footers.length → h2.footerAt j = h.footerAt j) ∧
    (∀ h r s h2 j, EmbedBuilder.SetAuthorName h r s = Except.ok h2 →
      h2.footerAt j = h.footerAt j) ∧
    (∀ h r u h2 j, EmbedBuilder.SetAuthorUrl h r u = Except.ok h2 →
      h2.footerAt j = h.footerAt j) ∧
    (∀ h r u h2 j, EmbedBuilder.SetAuthorIconUrl h r u = Except.ok h2 →
      h2.footerAt j = h.footerAt j) ∧
    (∀ h r s h2 i, EmbedBuilder.SetFooterText h r s = Except.ok h2 →
      h2.authorAt i = h.authorAt i) ∧
    (∀ h r u h2 i, EmbedBuilder.SetFooterIconUrl h r u = Except.ok h2 →
      h2.authorAt i = h.authorAt i) ∧
    (∀ h r s h2, r < h.embeds.length →
      EmbedBuilder.SetAuthorName h r s = Except.ok h2 →
      h2.embedAt r = { h.embedAt r with author := some h.authors.length } ∧
      h2.authorAt h.authors.length =
        { (match (h.embedAt r).author with
            | some a => h.authorAt a
            | none => {}) with name := some s } ∧
      h2.authors.length = h.authors.length + 1 ∧
      h2.embeds.length = h.embeds.length ∧
      (∀ i, i < h.authors.length → h2.authorAt i = h.authorAt i) ∧
      (∀ j, h2.footerAt j = h.footerAt j)) ∧
    (∀ h r s h2, r < h.embeds.length →
      EmbedBuilder.SetAuthorUrl h r s = Except.ok h2 →
      h2.embedAt r = { h.embedAt r with author := some h.authors.length } ∧
      h2.authorAt h.authors.length =
        { (match (h.embedAt r).author with
            | some a => h.authorAt a
            | none => {}) with url := some s } ∧
      h2.authors.length = h.authors.length + 1 ∧
      h2.embeds.length = h.embeds.length ∧
      (∀ i, i < h.authors.length → h2.authorAt i = h.authorAt i) ∧
      (∀ j, h2.footerAt j = h.footerAt j)) ∧
    (∀ h r s h2, r < h.embeds.length →
      EmbedBuilder.SetAuthorIconUrl h r s = Except.ok h2 →
      h2.embedAt r = { h.embedAt r with author := some h.authors.length } ∧
      h2.authorAt h.authors.length =
        { (match (h.embedAt r).author with
            | some a => h.authorAt a
            | none => {}) with icon_url := some s } ∧
      h2.authors.length = h.authors.length + 1 ∧
      h2.embeds.length = h.embeds.length ∧
      (∀ i, i < h.authors.length → h2.authorAt i = h.authorAt i) ∧
      (∀ j, h2.footerAt j = h.footerAt j)) ∧
    (∀ h r s h2, r < h.embeds.length →
      EmbedBuilder.SetFooterText h r s = Except.ok h2 →
      h2.embedAt r = { h.embedAt r with footer := some h.footers.length } ∧
      h2.footerAt h.footers.length =
        { (match (h.embedAt r).footer with
            | some f => h.footerAt f
            | none => {}) with text := some s } ∧
      h2.footers.length = h.footers.length + 1 ∧
      h2.embeds.length = h.embeds.length ∧
      (∀ j, j < h.footers.length → h2.footerAt j = h.footerAt j) ∧
      (∀ i, h2.authorAt i = h.authorAt i)) ∧
    (∀ h r s h2, r < h.embeds.length →
      EmbedBuilder.SetFooterIconUrl h r s = Except.ok h2 →
      h2.embedAt r = { h.embedAt r with footer := some h.footers.length } ∧
      h2.footerAt h.footers.length =
        { (match (h.embedAt r).footer with
            | some f => h.footerAt f
            | none => {}) with icon_url := some s } ∧
      h2.footers.length = h.footers.length + 1 ∧
      h2.embeds.length = h.embeds.length ∧
      (∀ j, j < h.footers.length → h2.footerAt j = h.footerAt j) ∧
      (∀ i, h2.authorAt i = h.authorAt i)) ∧
    (∀ h r x y h1 h2, r < h.embeds.length →
      EmbedBuilder.SetAuthorName h r x = Except.ok h1 →
      EmbedBuilder.SetAuthorUrl h1 r y = Except.ok h2 →
      ∃ a1 a2, (h1.embedAt r).author = some a1 ∧
        (h1.authorAt a1).name = some x ∧
        h2.authorAt a1 = h1.authorAt a1 ∧
        (h2.embedAt r).author = some a2 ∧ a2 ≠ a1 ∧
        (h2.authorAt a2).name = some x ∧ (h2.authorAt a2).url = some y) ∧
    (∀ h r x y h1 h2, r < h.embeds.length →
      EmbedBuilder.SetAuthorUrl h r x = Except.ok h1 →
      EmbedBuilder.SetAuthorName h1 r y = Except.ok h2 →
      ∃ a1 a2, (h1.embedAt r).author = some a1 ∧
        (h1.authorAt a1).url = some x ∧
        h2.authorAt a1 = h1.authorAt a1 ∧
        (h2.embedAt r).author = some a2 ∧ a2 ≠ a1 ∧
        (h2.authorAt a2).url = some x ∧ (h2.authorAt a2).name = some y) ∧
    (∀ h r x y h1 h2, r < h.embeds.length →
      EmbedBuilder.SetAuthorName h r x = Except.ok h1 →
      EmbedBuilder.SetAuthorIconUrl h1 r y = Except.ok h2 →
      ∃ a1 a2, (h1.embedAt r).author = some a1 ∧
        (h1.authorAt a1).name = some x ∧
        h2.authorAt a1 = h1.authorAt a1 ∧
        (h2.embedAt r).author = some a2 ∧ a2 ≠ a1 ∧
        (h2.authorAt a2).name = some x ∧ (h2.authorAt a2).icon_url = some y) ∧
    (∀ h r x y h1 h2, r < h.embeds.length →
      EmbedBuilder.SetAuthorIconUrl h r x = Except.ok h1 →
      EmbedBuilder.SetAuthorName h1 r y = Except.ok h2 →
      ∃ a1 a2, (h1.embedAt r).author = some a1 ∧
        (h1.authorAt a1).icon_url = some x ∧
        h2.authorAt a1 = h1.authorAt a1 ∧
        (h2.embedAt r).author = some a2 ∧ a2 ≠ a1 ∧
        (h2.authorAt a2).icon_url = some x ∧ (h2.authorAt a2).name = some y) ∧
    (∀ h r x y h1 h2, r < h.embeds.length →
      EmbedBuilder.SetAuthorUrl h r x = Except.ok h1 →
      EmbedBuilder.SetAuthorIconUrl h1 r y = Except.ok h2 →
      ∃ a1 a2, (h1.embedAt r).author = some a1 ∧
        (h1.authorAt a1).url = some x ∧
        h2.authorAt a1 = h1.authorAt a1 ∧
        (h2.embedAt r).author = some a2 ∧ a2 ≠ a1 ∧
        (h2.authorAt a2).url = some x ∧ (h2.authorAt a2).icon_url = some y) ∧
    (∀ h r x y h1 h2, r < h.embeds.length →
      EmbedBuilder.SetAuthorIconUrl h r x = Except.ok h1 →
      EmbedBuilder.SetAuthorUrl h1 r y = Except.ok h2 →
      ∃ a1 a2, (h1.embedAt r).author = some a1 ∧
        (h1.authorAt a1).icon_url = some x ∧
        h2.authorAt a1 = h1.authorAt a1 ∧
        (h2.embedAt r).author = some a2 ∧ a2 ≠ a1 ∧
        (h2.authorAt a2).icon_url = some x ∧ (h2.authorAt a2).url = some y) ∧
    (∀ h r x y h1 h2, r < h.embeds.length →
      EmbedBuilder.SetFooterText h r x = Except.ok h1 →
      EmbedBuilder.SetFooterIconUrl h1 r y = Except.ok h2 →
      ∃ a1 a2, (h1.embedAt r).footer = some a1 ∧
        (h1.footerAt a1).text = some x ∧
        h2.footerAt a1 = h1.footerAt a1 ∧
        (h2.embedAt r).footer = some a2 ∧ a2 ≠ a1 ∧
        (h2.footerAt a2).text = some x ∧ (h2.footerAt a2).icon_url = some y) ∧
    (∀ h r x y h1 h2, r < h.embeds.length →
      EmbedBuilder.SetFooterIconUrl h r x = Except.ok h1 →
      EmbedBuilder.SetFooterText h1 r y = Except.ok h2 →
      ∃ a1 a2, (h1.embedAt r).footer = some a1 ∧
        (h1.footerAt a1).icon_url = some x ∧
        h2.footerAt a1 = h1.footerAt a1 ∧
        (h2.embedAt r).footer = some a2 ∧ a2 ≠ a1 ∧
        (h2.footerAt a2).icon_url = some x ∧ (h2.footerAt a2).text = some y) := by
  refine ⟨?_, ?_, ?_, ?_, ?_, ?_, ?_, ?_, ?_, ?_, ?_, ?_, ?_, ?_, ?_, ?_, ?_, ?_, ?_, ?_,
    ?_, ?_, ?_, ?_⟩
  · intro h r u n h1 h2 hr hnone hu hn
    by_cases hv : IsValidUrl u
    · simp only [EmbedBuilder.SetAuthorUrl, if_pos hv, Except.ok.injEq] at hu
      have hr1 : r < h1.embeds.length := by
        rw [← hu]
        simpa [Heap.setEmbed, Heap.allocAuthor] using hr
      have hg1 : (h1.embedAt r).author = some h.authors.length := by
        rw [← hu, embedAt_allocAuthor_setEmbed _ _ r _ hr]
        rfl
      have hlt : h.authors.length < h1.authors.length := by
        rw [← hu]
        simp [Heap.setEmbed, Heap.allocAuthor]
      have hstep2 : h1.authorAt h.authors.length = { url := some u } := by
        rw [← hu, authorAt_setEmbed, authorAt_allocAuthor_new, hnone]
      by_cases hlen : 256 < GetUtf8Length n
      · simp [EmbedBuilder.SetAuthorName, hlen] at hn
      · simp only [EmbedBuilder.SetAuthorName, if_neg hlen, Except.ok.injEq] at hn
        refine ⟨h.authors.length, h1.authors.length, hg1, hstep2, ?_, ?_, ?_⟩
        · rw [← hn, authorAt_setEmbed, authorAt_allocAuthor_old _ _ _ hlt, hstep2]
        · rw [← hn, embedAt_allocAuthor_setEmbed _ _ r _ hr1]
          rfl
        · rw [← hn, authorAt_setEmbed, authorAt_allocAuthor_new]
          simp [hg1, hstep2]
    · simp [EmbedBuilder.SetAuthorUrl, hv] at hu
  · intro h r s h2 i he hi
    by_cases hlen : 256 < GetUtf8Length s
    · simp [EmbedBuilder.SetAuthorName, hlen] at he
    · simp only [EmbedBuilder.SetAuthorName, if_neg hlen, Except.ok.injEq] at he
      rw [← he, authorAt_setEmbed, authorAt_allocAuthor_old _ _ _ hi]
  · intro h r u h2 i he hi
    by_cases hv : IsValidUrl u
    · simp only [EmbedBuilder.SetAuthorUrl, if_pos hv, Except.ok.injEq] at he
      rw [← he, authorAt_setEmbed, authorAt_allocAuthor_old _ _ _ hi]
    · simp [EmbedBuilder.SetAuthorUrl, hv] at he
  · intro h r u h2 i he hi
    by_cases hv : IsValidUrl u
    · simp only [EmbedBuilder.SetAuthorIconUrl, if_pos hv, Except.ok.injEq] at he
      rw [← he, authorAt_setEmbed, authorAt_allocAuthor_old _ _ _ hi]
    · simp [EmbedBuilder.SetAuthorIconUrl, hv] at he
  · intro h r s h2 j he hj
    by_cases hlen : 2048 < GetUtf8Length s
    · simp [EmbedBuilder.SetFooterText, hlen] at he
    · simp only [EmbedBuilder.SetFooterText, if_neg hlen, Except.ok.injEq] at he
      rw [← he, footerAt_setEmbed, footerAt_allocFooter_old _ _ _ hj]
  · intro h r u h2 j he hj
    by_cases hv : IsValidUrl u
    · simp only [EmbedBuilder.SetFooterIconUrl, if_pos hv, Except.ok.injEq] at he
      rw [← he, footerAt_setEmbed, footerAt_allocFooter_old _ _ _ hj]
    · simp [EmbedBuilder.SetFooterIconUrl, hv] at he
  · intro h r s h2 j he
    by_cases hlen : 256 < GetUtf8Length s
    · simp [EmbedBuilder.SetAuthorName, hlen] at he
    · simp only [EmbedBuilder.SetAuthorName, if_neg hlen, Except.ok.injEq] at he
      rw [← he, footerAt_setEmbed, footerAt_allocAuthor]
  · intro h r u h2 j he
    by_cases hv : IsValidUrl u
    · simp only [EmbedBuilder.SetAuthorUrl, if_pos hv, Except.ok.injEq] at he
      rw [← he, footerAt_setEmbed, footerAt_allocAuthor]
    · simp [EmbedBuilder.SetAuthorUrl, hv] at he
  · intro h r u h2 j he
    by_cases hv : IsValidUrl u
    · simp only [EmbedBuilder.SetAuthorIconUrl, if_pos hv, Except.ok.injEq] at he
      rw [← he, footerAt_setEmbed, footerAt_allocAuthor]
    · simp [EmbedBuilder.SetAuthorIconUrl, hv] at he
  · intro h r s h2 i he
    by_cases hlen : 2048 < GetUtf8Length s
    · simp [EmbedBuilder.SetFooterText, hlen] at he
    · simp only [EmbedBuilder.SetFooterText, if_neg hlen, Except.ok.injEq] at he
      rw [← he, authorAt_setEmbed, authorAt_allocFooter]
  · intro h r u h2 i he
    by_cases hv : IsValidUrl u
    · simp only [EmbedBuilder.SetFooterIconUrl, if_pos hv, Except.ok.injEq] at he
      rw [← he, authorAt_setEmbed, authorAt_allocFooter]
    · simp [EmbedBuilder.SetFooterIconUrl, hv] at he
  · exact SetAuthorName_clones
  · exact SetAuthorUrl_clones
  · exact SetAuthorIconUrl_clones
  · exact SetFooterText_clones
  · exact SetFooterIconUrl_clones
  · intro h r x y h1 h2 hr he1 he2
    obtain ⟨hd1, ha1, hl1, hel1, -, -⟩ := SetAuthorName_clones h r x h1 hr he1
    have hr1 : r < h1.embeds.length := by rw [hel1]; exact hr
    obtain ⟨hd2, ha2, hl2, -, hp2, -⟩ := SetAuthorUrl_clones h1 r y h2 hr1 he2
    have hsc : (h1.embedAt r).author = some h.authors.length := by simp [hd1]
    refine ⟨h.authors.length, h1.authors.length, hsc, by simp [ha1], ?_, by simp [hd2],
      ?_, ?_, by simp [ha2]⟩
    · exact hp2 _ (by rw [hl1]; omega)
    · omega
    · simp [ha2, hsc, ha1]
  · intro h r x y h1 h2 hr he1 he2
    obtain ⟨hd1, ha1, hl1, hel1, -, -⟩ := SetAuthorUrl_clones h r x h1 hr he1
    have hr1 : r < h1.embeds.length := by rw [hel1]; exact hr
    obtain ⟨hd2, ha2, hl2, -, hp2, -⟩ := SetAuthorName_clones h1 r y h2 hr1 he2
    have hsc : (h1.embedAt r).author = some h.authors.length := by simp [hd1]
    refine ⟨h.authors.length, h1.authors.length, hsc, by simp [ha1], ?_, by simp [hd2],
      ?_, ?_, by simp [ha2]⟩
    · exact hp2 _ (by rw [hl1]; omega)
    · omega
    · simp [ha2, hsc, ha1]
  · intro h r x y h1 h2 hr he1 he2
    obtain ⟨hd1, ha1, hl1, hel1, -, -⟩ := SetAuthorName_clones h r x h1 hr he1
    have hr1 : r < h1.embeds.length := by rw [hel1]; exact hr
    obtain ⟨hd2, ha2, hl2, -, hp2, -⟩ := SetAuthorIconUrl_clones h1 r y h2 hr1 he2
    have hsc : (h1.embedAt r).author = some h.authors.length := by simp [hd1]
    refine ⟨h.authors.length, h1.authors.length, hsc, by simp [ha1], ?_, by simp [hd2],
      ?_, ?_, by simp [ha2]⟩
    · exact hp2 _ (by rw [hl1]; omega)
    · omega
    · simp [ha2, hsc, ha1]
  · intro h r x y h1 h2 hr he1 he2
    obtain ⟨hd1, ha1, hl1, hel1, -, -⟩ := SetAuthorIconUrl_clones h r x h1 hr he1
    have hr1 : r < h1.embeds.length := by rw [hel1]; exact hr
    obtain ⟨hd2, ha2, hl2, -, hp2, -⟩ := SetAuthorName_clones h1 r y h2 hr1 he2
    have hsc : (h1.embedAt r).author = some h.authors.length := by simp [hd1]
    refine ⟨h.authors.length, h1.authors.length, hsc, by simp [ha1], ?_, by simp [hd2],
      ?_, ?_, by simp [ha2]⟩
    · exact hp2 _ (by rw [hl1]; omega)
    · omega
    · simp [ha2, hsc, ha1]
  · intro h r x y h1 h2 hr he1 he2
    obtain ⟨hd1, ha1, hl1, hel1, -, -⟩ := SetAuthorUrl_clones h r x h1 hr he1
    have hr1 : r < h1.embeds.length := by rw [hel1]; exact hr
    obtain ⟨hd2, ha2, hl2, -, hp2, -⟩ := SetAuthorIconUrl_clones h1 r y h2 hr1 he2
    have hsc : (h1.embedAt r).author = some h.authors.length := by simp [hd1]
    refine ⟨h.authors.length, h1.authors.length, hsc, by simp [ha1], ?_, by simp [hd2],
      ?_, ?_, by simp [ha2]⟩
    · exact hp2 _ (by rw [hl1]; omega)
    · omega
    · simp [ha2, hsc, ha1]
  · intro h r x y h1 h2 hr he1 he2
    obtain ⟨hd1, ha1, hl1, hel1, -, -⟩ := SetAuthorIconUrl_clones h r x h1 hr he1
    have hr1 : r < h1.embeds.length := by rw [hel1]; exact hr
    obtain ⟨hd2, ha2, hl2, -, hp2, -⟩ := SetAuthorUrl_clones h1 r y h2 hr1 he2
    have hsc : (h1.embedAt r).author = some h.authors.length := by simp [hd1]
    refine ⟨h.authors.length, h1.authors.length, hsc, by simp [ha1], ?_, by simp [hd2],
      ?_, ?_, by simp [ha2]⟩
    · exact hp2 _ (by rw [hl1]; omega)
    · omega
    · simp [ha2, hsc, ha1]
  · intro h r x y h1 h2 hr he1 he2
    obtain ⟨hd1, ha1, hl1, hel1, -, -⟩ := SetFooterText_clones h r x h1 hr he1
    have hr1 : r < h1.embeds.length := by rw [hel1]; exact hr
    obtain ⟨hd2, ha2, hl2, -, hp2, -⟩ := SetFooterIconUrl_clones h1 r y h2 hr1 he2
    have hsc : (h1.embedAt r).footer = some h.footers.length := by simp [hd1]
    refine ⟨h.footers.length, h1.footers.length, hsc, by simp [ha1], ?_, by simp [hd2],
      ?_, ?_, by simp [ha2]⟩
    · exact hp2 _ (by rw [hl1]; omega)
    · omega
    · simp [ha2, hsc, ha1]
  · intro h r x y h1 h2 hr he1 he2
    obtain ⟨hd1, ha1, hl1, hel1, -, -⟩ := SetFooterIconUrl_clones h r x h1 hr he1
    have hr1 : r < h1.embeds.length := by rw [hel1]; exact hr
    obtain ⟨hd2, ha2, hl2, -, hp2, -⟩ := SetFooterText_clones h1 r y h2 hr1 he2
    have hsc : (h1.embedAt r).footer = some h.footers.length := by simp [hd1]
    refine ⟨h.footers.length, h1.footers.length, hsc, by simp [ha1], ?_, by simp [hd2],
      ?_, ?_, by simp [ha2]⟩
    · exact hp2 _ (by rw [hl1]; omega)
    · omega
    · simp [ha2, hsc, ha1]

/-- Witness for C5: the scenario run on a fresh builder with
`u = "https://e.com"`, `n = "me"`, and the reverse-order pair
(`SetAuthorName "me"` then `SetAuthorUrl "https://e.com"`) on a fresh
builder. -/
theorem author_footer_copy_on_write_witness :
    (∃ a1 a2,
      (cowHeap1.embedAt 0).author = some a1 ∧
      cowHeap1.authorAt a1 = { url := some "https://e.com" } ∧
      cowHeap2.authorAt a1 = { url := some "https://e.com" } ∧
      (cowHeap2.embedAt 0).author = some a2 ∧
      cowHeap2.authorAt a2 = { name := some "me", url := some "https://e.com" }) ∧
    (∃ a1 a2,
      (cowHeap3.embedAt 0).author = some a1 ∧
      (cowHeap3.authorAt a1).name = some "me" ∧
      cowHeap4.authorAt a1 = cowHeap3.authorAt a1 ∧
      (cowHeap4.embedAt 0).author = some a2 ∧ a2 ≠ a1 ∧
      (cowHeap4.authorAt a2).name = some "me" ∧
      (cowHeap4.authorAt a2).url = some "https://e.com") := by
  constructor
  · exact author_footer_copy_on_write.1 { embeds := [{}] } 0 "https://e.com" "me"
      cowHeap1 cowHeap2 (by decide) rfl rfl rfl
  · exact author_footer_copy_on_write.2.2.2.2.2.2.2.2.2.2.2.2.2.2.2.2.1 { embeds := [{}] } 0 "me"
      "https://e.com" cowHeap3 cowHeap4 (by decide) rfl rfl

/-- Counterexample to C1 as stated: `AddEmbed` stores a REFERENCE to the
embed's live document table, not a snapshot.  With a fresh embed builder
(reference 0, document `{}`) added to a fresh content builder, the message
document's embeds list holds reference 0; at the time of the call the
referenced document has no title, but after the subsequent `SetTitle "x"`
the very element stored in the message document — read through that same
reference, as `Serialize` does — now carries `title = "x"`, so the stored
element did NOT stay unchanged. -/
theorem addEmbed_snapshot_counterexample :
    ContentBuilder.AddEmbed {} (DynArg.embedBuilder 0) =
      Except.ok { data := { embeds := some [0] } } ∧
    Heap.embedAt { embeds := [{}] } 0 = {} ∧
    EmbedBuilder.SetTitle { embeds := [{}] } 0 "x" =
      Except.ok { embeds := [{ title := some "x" }] } ∧
    Heap.embedAt { embeds := [{ title := some "x" }] } 0 ≠ ({} : EmbedData) ∧
    (Heap.embedAt { embeds := [{ title := some "x" }] } 0).title = some "x" ∧
    serializeEmbed { embeds := [{ title := some "x" }] } 0 =
      Json.obj [("title", Json.str "x")] := by
  exact ⟨rfl, rfl, rfl, by decide, rfl, rfl⟩

/-- C1 amended: `AddEmbed` appends the reference to the embed's live
document to the message's embeds sequence (the embeds array itself is
copied, the element is not), leaving the heap untouched; consequently a
subsequent successful `SetTitle` through the embed builder is visible in
the document read through the stored reference. -/
theorem addEmbed_appends_reference (h : Heap) (c : ContentBuilder) (r : Nat) :
    ContentBuilder.AddEmbed c (DynArg.embedBuilder r) =
      Except.ok { c with data := { c.data with
        embeds := some (c.data.embeds.getD [] ++ [r]) } } ∧
    (∀ s h2, r < h.embeds.length → EmbedBuilder.SetTitle h r s = Except.ok h2 →
      h2.embedAt r = { h.embedAt r with title := some s }) := by
  constructor
  · simp [ContentBuilder.AddEmbed, EmbedBuilder.Is, Utility.Append]
  · intro s h2 hr he
    by_cases hlen : 256 < GetUtf8Length s
    · simp [EmbedBuilder.SetTitle, hlen] at he
    · simp only [EmbedBuilder.SetTitle, if_neg hlen, Except.ok.injEq] at he
      rw [← he, embedAt_setEmbed_self h r _ hr]

/-- Witness for the amended C1 at a concrete input. -/
theorem addEmbed_appends_reference_witness :
    ContentBuilder.AddEmbed {} (DynArg.embedBuilder 0) =
      Except.ok { data := { embeds := some ((({} : ContentBuilder).data.embeds.getD []) ++ [0]) } } ∧
    Heap.embedAt { embeds := [{ title := some "x" }] } 0 =
      { Heap.embedAt { embeds := [({} : EmbedData)] } 0 with title := some "x" } := by
  constructor
  · exact (addEmbed_appends_reference { embeds := [{}] } {} 0).1
  · exact (addEmbed_appends_reference { embeds := [{}] } {} 0).2 "x"
      { embeds := [{ title := some "x" }] } (by decide) rfl

/-- C2: `SetFields` is not behaviourally identical to `AddFields` — the
empty table fails the field-shape predicate, so `AddFields [{}]` raises the
validation error and appends nothing, while `SetFields [{}]` skips the
batch validation and appends the malformed element. -/
theorem setFields_skips_validation :
    IsFieldData {} = false ∧
    EmbedBuilder.AddFields { embeds := [{}] } 0 [{}] =
      Except.error ("\x27args\x27 must be an array of IFieldData") ∧
    EmbedBuilder.SetFields { embeds := [{}] } 0 [{}] =
      Except.ok { embeds := [{ fields := some [{}] }] } := by
  exact ⟨rfl, rfl, rfl⟩

/-- C6: the `SetDescription` bound actually enforced is 4096 (a 4096
code-point string is accepted), but the error raised for a 4097 code-point
string cites the bound 2048, not the violated bound 4096. -/
theorem setDescription_message_cites_wrong_bound :
    EmbedBuilder.SetDescription { embeds := [{}] } 0 (xRep 4097) =
      Except.error ("\x27description\x27 must be less than 2048 characters") ∧
    EmbedBuilder.SetDescription { embeds := [{}] } 0 (xRep 4096) =
      Except.ok { embeds := [{ description := some (xRep 4096) }] } := by
  constructor
  · simp [EmbedBuilder.SetDescription, GetUtf8Length_xRep]
  · have hc : ¬ (4096 < GetUtf8Length (xRep 4096)) := by simp [GetUtf8Length_xRep]
    simp only [EmbedBuilder.SetDescription, if_neg hc]
    rfl

/-- C9: `AddEmbed` fails with the capability-check error on every value
that is not an `EmbedBuilder` instance (producing no updated builder, so
the embeds sequence is unchanged), and succeeds on every actual
`EmbedBuilder`, appending its document reference. -/
theorem addEmbed_capability_check :
    (∀ c v, EmbedBuilder.Is v = false →
      ContentBuilder.AddEmbed c v = Except.error ("Embed must be an EmbedBuilder")) ∧
    (∀ c r, ContentBuilder.AddEmbed c (DynArg.embedBuilder r) =
      Except.ok { c with data := { c.data with
        embeds := some (c.data.embeds.getD [] ++ [r]) } }) := by
  constructor
  · intro c v hv
    cases v with
    | embedBuilder r => simp [EmbedBuilder.Is] at hv
    | str s => simp [ContentBuilder.AddEmbed, EmbedBuilder.Is]
    | num n => simp [ContentBuilder.AddEmbed, EmbedBuilder.Is]
    | bool b => simp [ContentBuilder.AddEmbed, EmbedBuilder.Is]
    | nil => simp [ContentBuilder.AddEmbed, EmbedBuilder.Is]
  · intro c r
    simp [ContentBuilder.AddEmbed, EmbedBuilder.Is, Utility.Append]

/-- Witness for C9: a string value is rejected with the type error. -/
theorem addEmbed_capability_check_witness :
    ContentBuilder.AddEmbed {} (DynArg.str "nope") =
      Except.error ("Embed must be an EmbedBuilder") :=
  addEmbed_capability_check.1 {} (DynArg.str "nope") rfl

/-- C7: for every integer, each of the seven styles produces exactly
`<t:{u}:{code}>` with its documented single-letter code, the Relative
example evaluates to `<t:1690000000:R>`, and every enumerator value outside
the seven styles fails with the value error. -/
theorem createTimestamp_table :
    (∀ u : Int,
      CreateTimestampForUnixTimestamp TimestampType.ShortTime u =
        Except.ok ("<t:" ++ toString u ++ ":t>") ∧
      CreateTimestampForUnixTimestamp TimestampType.LongTime u =
        Except.ok ("<t:" ++ toString u ++ ":T>") ∧
      CreateTimestampForUnixTimestamp TimestampType.ShortDate u =
        Except.ok ("<t:" ++ toString u ++ ":d>") ∧
      CreateTimestampForUnixTimestamp TimestampType.LongDate u =
        Except.ok ("<t:" ++ toString u ++ ":D>") ∧
      CreateTimestampForUnixTimestamp TimestampType.LongDateWithShortTime u =
        Except.ok ("<t:" ++ toString u ++ ":f>") ∧
      CreateTimestampForUnixTimestamp TimestampType.LongDateWithDayOfWeekAndShortTime u =
        Except.ok ("<t:" ++ toString u ++ ":F>") ∧
      CreateTimestampForUnixTimestamp TimestampType.Relative u =
        Except.ok ("<t:" ++ toString u ++ ":R>")) ∧
    CreateTimestampForUnixTimestamp TimestampType.Relative 1690000000 =
      Except.ok "<t:1690000000:R>" ∧
    (∀ t u, 7 ≤ t →
      CreateTimestampForUnixTimestamp t u =
        Except.error ("Invalid timestamp type " ++ toString t)) := by
  refine ⟨fun u => ⟨rfl, rfl, rfl, rfl, rfl, rfl, rfl⟩, rfl, ?_⟩
  intro t u ht
  simp only [CreateTimestampForUnixTimestamp, TimestampType.ShortTime, TimestampType.LongTime,
    TimestampType.ShortDate, TimestampType.LongDate, TimestampType.LongDateWithShortTime,
    TimestampType.LongDateWithDayOfWeekAndShortTime, TimestampType.Relative]
  rw [if_neg (by omega), if_neg (by omega), if_neg (by omega), if_neg (by omega),
    if_neg (by omega), if_neg (by omega), if_neg (by omega)]

/-- Witness for C7: style value 99 is rejected. -/
theorem createTimestamp_table_witness :
    CreateTimestampForUnixTimestamp 99 5 =
      Except.error ("Invalid timestamp type " ++ toString (99 : Nat)) :=
  createTimestamp_table.2.2 99 5 (by decide)

theorem lor_and_self (x f : Nat) : (x ||| f) &&& f = f := by
  apply Nat.eq_of_testBit_eq
  intro i
  rw [Nat.testBit_and, Nat.testBit_or]
  cases hx : x.testBit i <;> cases hf : f.testBit i <;> rfl

theorem and_two_pow_of_ne_zero (x i : Nat) (hx : x &&& 2 ^ i ≠ 0) :
    x &&& 2 ^ i = 2 ^ i := by
  rw [Nat.and_two_pow] at hx ⊢
  cases hb : x.testBit i with
  | false => rw [hb] at hx; simp at hx
  | true => simp

/-- C8: re-adding a flag that is already present warns and returns the
builder (document and flag set) entirely unchanged; a second `AddFlag` of
the same flag after a first is always such a warning no-op; and after any
`AddFlag F` the flag set contains exactly the bit of `F` (so F occurs once:
the combined value masked by F yields F itself). -/
theorem addFlag_idempotent :
    (∀ (c : ContentBuilder) (F : MessageFlags), c.flags &&& F.val ≠ 0 →
      ContentBuilder.AddFlag c F = (c, true)) ∧
    (∀ (c : ContentBuilder) (F : MessageFlags),
      ContentBuilder.AddFlag (ContentBuilder.AddFlag c F).1 F =
        ((ContentBuilder.AddFlag c F).1, true)) ∧
    (∀ (c : ContentBuilder) (F : MessageFlags),
      (ContentBuilder.AddFlag c F).1.flags &&& F.val = F.val) := by
  have hval_ne : ∀ F : MessageFlags, F.val ≠ 0 := by
    intro F
    cases F <;> decide
  have halready : ∀ (c : ContentBuilder) (F : MessageFlags), c.flags &&& F.val ≠ 0 →
      ContentBuilder.AddFlag c F = (c, true) := by
    intro c F hne
    simp [ContentBuilder.AddFlag, BitField.Intersects, bne_iff_ne, hne]
  have hcontains : ∀ (c : ContentBuilder) (F : MessageFlags),
      (ContentBuilder.AddFlag c F).1.flags &&& F.val = F.val := by
    intro c F
    by_cases hset : c.flags &&& F.val = 0
    · have hcond : BitField.Intersects c.flags F.val = false := by
        simp [BitField.Intersects, hset]
      simp [ContentBuilder.AddFlag, hcond, BitField.On, lor_and_self]
    · rw [halready c F hset]
      cases F with
      | SUPPRESS_EMBEDS =>
          rw [show MessageFlags.val MessageFlags.SUPPRESS_EMBEDS = 2 ^ 2 from rfl] at hset ⊢
          exact and_two_pow_of_ne_zero _ _ hset
      | SUPPRESS_NOTIFICATIONS =>
          rw [show MessageFlags.val MessageFlags.SUPPRESS_NOTIFICATIONS = 2 ^ 12 from rfl]
            at hset ⊢
          exact and_two_pow_of_ne_zero _ _ hset
  refine ⟨halready, ?_, hcontains⟩
  intro c F
  exact halready _ F (by rw [hcontains c F]; exact hval_ne F)

/-- Witness for C8: with the SUPPRESS_EMBEDS bit (value 4) already present,
`AddFlag` returns the builder unchanged with the warning flag. -/
theorem addFlag_idempotent_witness :
    ContentBuilder.AddFlag { flags := 4 } MessageFlags.SUPPRESS_EMBEDS =
      ({ flags := 4 }, true) :=
  addFlag_idempotent.1 { flags := 4 } MessageFlags.SUPPRESS_EMBEDS (by decide)

/-- C10: the serialized message mapping (and the object handed to the JSON
encoder by `SerializeAsJson`/`ToJson`, which is the same mapping) always
contains the key `flags`, bound to the bit set's combined integer value —
in particular `flags = 0` for a builder whose flag set was never touched —
for every heap and every builder state whatsoever. -/
theorem serialize_always_flags (h : Heap) (c : ContentBuilder) :
    lookupKey (ContentBuilder.Serialize h c) "flags" =
      some (Json.num (Int.ofNat c.flags)) ∧
    ContentBuilder.SerializeAsJson h c = Json.obj (ContentBuilder.Serialize h c) ∧
    ContentBuilder.ToJson h c = Json.obj (ContentBuilder.Serialize h c) ∧
    lookupKey (ContentBuilder.Serialize h ({} : ContentBuilder)) "flags" =
      some (Json.num 0) := by
  refine ⟨?_, rfl, rfl, rfl⟩
  rcases c with ⟨⟨att, av, co, em, th, us⟩, fl⟩
  cases av <;> cases co <;> cases em <;> cases th <;> cases us <;> rfl

/-- Witness for C10: a completely fresh builder serializes with
`flags = 0` present. -/
theorem serialize_always_flags_witness :
    lookupKey (ContentBuilder.Serialize {} ({} : ContentBuilder)) "flags" =
      some (Json.num (Int.ofNat ({} : ContentBuilder).flags)) :=
  (serialize_always_flags {} {}).1
